import Mathlib

/-!
Verification development for the swift-guard daemon.

The definitions below are a shallow embedding of the Rust sources:
  - `src/daemon/src/maps.rs`   (MapManager, FilterRule, byte encoders)
  - `src/daemon/src/server.rs` (process_request for AddRule / DeleteRule)
  - `src/common/utils.rs`      (parse_ip_prefix and friends)
  - `src/daemon/src/wasm.rs`   (WasmInspector, WasmManager)
  - `src/daemon/src/telemetry.rs` (TelemetryCollector)

Machine integers are modelled as `Nat` with explicit `% 256` byte splitting
where layout matters; kernel BPF maps are association lists from key bytes to
value bytes; fallible Rust functions (`Result`) become `Except String`.
-/

namespace SwiftGuard

/-- Byte strings are lists of byte values (each value below 256 by construction). -/
abbrev Bytes := List Nat

/-- Model of Rust `u16::to_le_bytes`. -/
def le16 (n : Nat) : Bytes := [n % 256, n / 256 % 256]

/-- Model of Rust `u32::to_le_bytes`. -/
def le32 (n : Nat) : Bytes :=
  [n % 256, n / 256 % 256, n / 65536 % 256, n / 16777216 % 256]

/-- UTF-8 bytes of a Rust `&str` (`str::as_bytes`). -/
def strBytes (s : String) : Bytes := s.toUTF8.toList.map (fun b => b.toNat)

/-- The label buffer of `MapManager::create_filter_rule` (maps.rs:379-384):
a 32-byte array, initially zero, receiving `label.as_bytes()[i]` at every
index `i < 31`. -/
def labelBytes (label : String) : Bytes :=
  (List.range 32).map (fun i =>
    if i < 31 ∧ i < (strBytes label).length then (strBytes label).getD i 0 else 0)

/-- The ifname buffer of `MapManager::create_if_redirect` (maps.rs:401-406):
a 16-byte array, initially zero, receiving `ifname.as_bytes()[i]` at every
index `i < 15`. -/
def ifnameBytes (ifname : String) : Bytes :=
  (List.range 16).map (fun i =>
    if i < 15 ∧ i < (strBytes ifname).length then (strBytes ifname).getD i 0 else 0)

/-- The `FilterRule` struct of maps.rs:20-36. -/
structure FilterRule where
  src_ip : Option (Nat × Nat)
  dst_ip : Option (Nat × Nat)
  src_port_min : Nat
  src_port_max : Nat
  dst_port_min : Nat
  dst_port_max : Nat
  protocol : Nat
  tcp_flags : Nat
  action : Nat
  redirect_ifindex : Nat
  priority : Nat
  rate_limit : Nat
  expire : Nat
  label : String
  creation_time : Nat
deriving DecidableEq, Repr

/-- A kernel BPF map modelled as an association list from key bytes to value
bytes (no duplicate keys arise from the operations below). -/
abbrev KernelMap := List (Bytes × Bytes)

/-- Model of `Map::update` with `MapFlags::ANY`: upsert, replacing the value
when the key is present and appending otherwise. -/
def mapUpdate (m : KernelMap) (k v : Bytes) : KernelMap :=
  match m with
  | [] => [(k, v)]
  | (k', v') :: rest => if k' = k then (k, v) :: rest else (k', v') :: mapUpdate rest k v

/-- Model of `Map::delete`: removes the entry for the key, or fails
(`ENOENT`, hence `Err` in libbpf-rs) when the key is absent. -/
def mapDelete (m : KernelMap) (k : Bytes) : Option KernelMap :=
  match m with
  | [] => none
  | (k', v') :: rest =>
    if k' = k then some rest else (mapDelete rest k).map (fun r => (k', v') :: r)

/-- Membership test on a kernel map. -/
def mapHasKey (m : KernelMap) (k : Bytes) : Bool := m.any (fun e => e.1 == k)

/-- State of `MapManager` (maps.rs:101-108): the two mutable kernel maps the
claims are about and the local rule cache. The map handles are modelled as
always available (the daemon only constructs a `MapManager` from a loaded
skeleton). The stats map is read-only for the manager and not needed here. -/
structure MapManager where
  filter_rules_map : KernelMap
  redirect_map : KernelMap
  rules : List FilterRule
deriving DecidableEq, Repr

/-- `MapManager::create_prefix_key` (maps.rs:329-339): prefix length little
endian, then the address little endian. The address is written as given —
no masking of bits beyond the prefix length happens. -/
def create_prefix_key (addr prefix_len : Nat) : Bytes :=
  le32 prefix_len ++ le32 addr

/-- `MapManager::create_filter_rule` (maps.rs:342-391): the byte value stored
in the `filter_rules` map. -/
def create_filter_rule (rule : FilterRule) : Bytes :=
  le32 rule.priority ++
  [rule.action] ++
  [rule.protocol] ++
  le16 rule.src_port_min ++
  le16 rule.src_port_max ++
  le16 rule.dst_port_min ++
  le16 rule.dst_port_max ++
  [rule.tcp_flags] ++
  le32 rule.redirect_ifindex ++
  le32 rule.rate_limit ++
  le32 rule.expire ++
  labelBytes rule.label ++
  List.replicate 24 0

/-- `MapManager::create_if_redirect` (maps.rs:394-410). -/
def create_if_redirect (ifindex : Nat) (ifname : String) : Bytes :=
  le32 ifindex ++ ifnameBytes ifname

/-- `MapManager::add_rule` (maps.rs:150-183): writes the filter map entry when
`src_ip` is present, writes the redirect map entry when `action == 3` and
`redirect_ifindex != 0`, then pushes the rule onto the local list. There is
no duplicate-label check. -/
def add_rule (s : MapManager) (rule : FilterRule) : Except String MapManager :=
  let s1 :=
    match rule.src_ip with
    | some (src_ip, prefix_len) =>
      let key := create_prefix_key src_ip prefix_len
      let value := create_filter_rule rule
      { s with filter_rules_map := mapUpdate s.filter_rules_map key value }
    | none => s
  let s2 :=
    if rule.action = 3 ∧ rule.redirect_ifindex ≠ 0 then
      let key := le32 rule.redirect_ifindex
      let if_redirect :=
        create_if_redirect rule.redirect_ifindex ("if" ++ toString rule.redirect_ifindex)
      { s1 with redirect_map := mapUpdate s1.redirect_map key if_redirect }
    else s1
  Except.ok { s2 with rules := s2.rules ++ [rule] }

/-- Model of `Iterator::position` as used in `MapManager::delete_rule`
(maps.rs:189): index of the first element satisfying the predicate. -/
def position (p : FilterRule → Bool) : List FilterRule → Option Nat
  | [] => none
  | r :: rest => if p r then some 0 else (position p rest).map (fun i => i + 1)

/-- `MapManager::delete_rule` (maps.rs:186-213): finds the first rule with the
label; if it carries a `src_ip`, deletes its filter map entry (a kernel
delete of an absent key is an error that propagates); removes the rule from
the local list; returns `true`. Returns `false` when no rule has the label.
The redirect map is never touched. -/
def delete_rule (s : MapManager) (label : String) : Except String (MapManager × Bool) :=
  match position (fun r => r.label == label) s.rules with
  | some index =>
    match s.rules[index]? with
    | some rule =>
      match rule.src_ip with
      | some (src_ip, prefix_len) =>
        match mapDelete s.filter_rules_map (create_prefix_key src_ip prefix_len) with
        | some m' =>
          Except.ok ({ s with filter_rules_map := m', rules := s.rules.eraseIdx index }, true)
        | none => Except.error "Failed to delete from filter_rules map"
      | none => Except.ok ({ s with rules := s.rules.eraseIdx index }, true)
    | none => Except.error "index out of bounds"
  | none => Except.ok (s, false)

/-- The single-quote character the server wraps rule labels in within its
response messages. -/
def sq : String := String.singleton (Char.ofNat 39)

/-- Model of Rust `str::parse::<uN>()` for an unsigned integer type with
maximum value `max`: an optional leading plus sign followed by at least one
decimal digit, failing on any other character and on overflow. -/
def rustParseNat (s : String) (max : Nat) : Option Nat :=
  let t := if s.startsWith "+" then s.drop 1 else s
  match t.toNat? with
  | some n => if n ≤ max then some n else none
  | none => none

/-- `utils::parse_ip_prefix` (common/utils.rs:35-64): split on the slash,
split the address on dots into exactly four octets, each parsed as `u8` and
packed big-endian-wise into a `u32`; the part after the slash parsed as
`u32` and required to be at most 32, defaulting to 32 when absent. -/
def parse_ip_prefix (s : String) : Except String (Nat × Nat) :=
  let parts := s.splitOn "/"
  let ip_str := (parts.getD 0 "").trim
  let octets := ip_str.splitOn "."
  if octets.length = 4 then
    match octets.mapM (fun o => rustParseNat o 255) with
    | some vals =>
      let ip := (List.zip vals (List.range 4)).foldl
        (fun acc vi => acc ||| (vi.1 <<< (8 * (3 - vi.2)))) 0
      let prefixRes : Except String Nat :=
        if parts.length > 1 then
          match rustParseNat ((parts.getD 1 "").trim) 4294967295 with
          | some p => Except.ok p
          | none => Except.error ("Invalid prefix length: " ++ parts.getD 1 "")
        else Except.ok 32
      match prefixRes with
      | Except.ok prefix_len =>
        if prefix_len > 32 then Except.error ("Invalid prefix length: " ++ toString prefix_len)
        else Except.ok (ip, prefix_len)
      | Except.error e => Except.error e
    | none => Except.error "Invalid IP address octet"
  else Except.error ("Invalid IP address format: " ++ ip_str)

/-- The fields of the `ApiRequest::AddRule` variant (server.rs:158-173). -/
structure AddRuleRequest where
  src_ip : Option String
  dst_ip : Option String
  src_port_min : Nat
  src_port_max : Nat
  dst_port_min : Nat
  dst_port_max : Nat
  protocol : Nat
  tcp_flags : Nat
  action : Nat
  redirect_if : Option String
  priority : Nat
  rate_limit : Nat
  expire : Nat
  label : String
deriving DecidableEq, Repr

/-- The response variants of the control server relevant here
(`ApiResponse::Success` and `ApiResponse::Error`). -/
inductive ApiResponse
  | Success (message : String)
  | Error (message : String)
deriving DecidableEq, Repr

/-- IP parsing of an optional request field as in server.rs:175-185. -/
def parseOptIp (field : Option String) : Except String (Option (Nat × Nat)) :=
  match field with
  | some ip_str =>
    match parse_ip_prefix ip_str with
    | Except.ok v => Except.ok (some v)
    | Except.error e => Except.error e
  | none => Except.ok none

/-- Redirect-interface resolution of server.rs:187-198: an absent
`redirect_if` yields index 0; a name starting with `if` has the remainder
parsed as `u32` (parse failure is an error); any other name yields 0. -/
def resolveRedirectIf (redirect_if : Option String) : Except String Nat :=
  match redirect_if with
  | some ifname =>
    if ifname.startsWith "if" then
      match rustParseNat (ifname.drop 2) 4294967295 with
      | some n => Except.ok n
      | none => Except.error ("Invalid interface format: " ++ ifname)
    else Except.ok 0
  | none => Except.ok 0

/-- `process_request` for the `AddRule` variant (server.rs:158-234), with the
wall clock passed in as `now`. A returned `Except.error` models the `?`
propagation out of `process_request` (the connection fails without a
response); the `ApiResponse` is what gets serialized back to the client. -/
def processAddRule (s : MapManager) (req : AddRuleRequest) (now : Nat) :
    Except String (ApiResponse × MapManager) :=
  match parseOptIp req.src_ip with
  | Except.error e => Except.error e
  | Except.ok src_ip_parsed =>
    match parseOptIp req.dst_ip with
    | Except.error e => Except.error e
    | Except.ok dst_ip_parsed =>
      match resolveRedirectIf req.redirect_if with
      | Except.error e => Except.error e
      | Except.ok redirect_ifindex =>
        let rule : FilterRule := {
          src_ip := src_ip_parsed
          dst_ip := dst_ip_parsed
          src_port_min := req.src_port_min
          src_port_max := req.src_port_max
          dst_port_min := req.dst_port_min
          dst_port_max := req.dst_port_max
          protocol := req.protocol
          tcp_flags := req.tcp_flags
          action := req.action
          redirect_ifindex := redirect_ifindex
          priority := req.priority
          rate_limit := req.rate_limit
          expire := req.expire
          label := req.label
          creation_time := now }
        match add_rule s rule with
        | Except.ok s' =>
          Except.ok (ApiResponse.Success ("Rule " ++ sq ++ req.label ++ sq ++ " added successfully"), s')
        | Except.error e => Except.error e

/-- `process_request` for the `DeleteRule` variant (server.rs:236-252). -/
def processDeleteRule (s : MapManager) (label : String) :
    Except String (ApiResponse × MapManager) :=
  match delete_rule s label with
  | Except.ok (s', deleted) =>
    if deleted then
      Except.ok (ApiResponse.Success ("Rule " ++ sq ++ label ++ sq ++ " deleted successfully"), s')
    else
      Except.ok (ApiResponse.Error ("Rule " ++ sq ++ label ++ sq ++ " not found"), s')
  | Except.error e => Except.error e

/-- `ModuleState` (wasm.rs:15-26). -/
inductive ModuleState
  | Initialized
  | Loaded
  | Running
  | Paused
  | Error
deriving DecidableEq, Repr

/-- Outcome of calling an exported wasm function: a normal return value or a
trap (wasmtime `Err`). -/
inductive WasmCallResult
  | ok (retval : Int)
  | trap
deriving DecidableEq, Repr

/-- Abstraction of a wasm module file and the wasmtime pipeline applied to it
in `WasmInspector::load` and `WasmInspector::inspect_packet`: whether the
file reads, compiles and instantiates, which exports it has, and the
behavior of its exported functions. -/
structure WasmModuleFile where
  readable : Bool
  compiles : Bool
  instantiates : Bool
  hasMemory : Bool
  hasInit : Bool
  initTraps : Bool
  hasAllocate : Bool
  allocResult : Nat → WasmCallResult
  writeFails : Int → Nat → Bool
  hasInspectFunc : Bool
  inspectResult : List Nat → WasmCallResult

/-- `WasmInspector` (wasm.rs:30-47): identifier, the module file behind
`path`/`engine`, state, whether `store`/`instance` are populated, and the
two counters. -/
structure WasmInspector where
  id : String
  file : WasmModuleFile
  state : ModuleState
  loaded : Bool
  processed_packets : Nat
  blocked_packets : Nat

/-- `WasmInspector::new` (wasm.rs:79-92). -/
def WasmInspector.new (id : String) (file : WasmModuleFile) : WasmInspector :=
  { id := id, file := file, state := ModuleState.Initialized, loaded := false,
    processed_packets := 0, blocked_packets := 0 }

/-- `WasmInspector::load` (wasm.rs:95-174): read the file, compile,
instantiate, resolve the exported memory (required), call `init` when
exported, then mark the module `Loaded`. The `inspect_packet` export is not
resolved here; on failure the state is left unchanged. -/
def WasmInspector.load (m : WasmInspector) : Except String WasmInspector :=
  if ¬ m.file.readable then Except.error "Failed to open WASM file"
  else if ¬ m.file.compiles then Except.error "Failed to compile WASM module"
  else if ¬ m.file.instantiates then Except.error "Failed to instantiate WASM module"
  else if ¬ m.file.hasMemory then Except.error "WASM module has no exported memory"
  else if m.file.hasInit ∧ m.file.initTraps then Except.error "Failed to call init function"
  else Except.ok { m with loaded := true, state := ModuleState.Loaded }

/-- `WasmInspector::inspect_packet` (wasm.rs:177-230): state must be Loaded
or Running; store, instance memory and the `inspect_packet` export are
resolved; the buffer pointer comes from `allocate` when exported and is
1024 otherwise; the packet is written into sandbox memory; the entry point
is called; on a normal return `processed_packets` is incremented and a
non-zero result counts as blocked. Every failure is an `Err` that leaves
the counters untouched. -/
def WasmInspector.inspect_packet (m : WasmInspector) (packet : List Nat) :
    Except String (Bool × WasmInspector) :=
  if m.state ≠ ModuleState.Loaded ∧ m.state ≠ ModuleState.Running then
    Except.error "WASM module not loaded"
  else if ¬ m.loaded then Except.error "WASM store not initialized"
  else if ¬ m.file.hasMemory then Except.error "WASM module has no exported memory"
  else if ¬ m.file.hasInspectFunc then
    Except.error "WASM module has no inspect_packet function"
  else
    let ptrRes :=
      if m.file.hasAllocate then m.file.allocResult packet.length
      else WasmCallResult.ok 1024
    match ptrRes with
    | WasmCallResult.trap => Except.error "Failed to allocate memory in WASM"
    | WasmCallResult.ok ptr =>
      if m.file.writeFails ptr packet.length then
        Except.error "Failed to write packet data to WASM memory"
      else
        match m.file.inspectResult packet with
        | WasmCallResult.trap => Except.error "Failed to call inspect_packet function"
        | WasmCallResult.ok result =>
          let m1 := { m with processed_packets := m.processed_packets + 1 }
          if result ≠ 0 then
            Except.ok (true, { m1 with blocked_packets := m1.blocked_packets + 1 })
          else
            Except.ok (false, m1)

/-- `WasmManager::load_module` (wasm.rs:264-274): create an inspector, load
it, and push it onto the list; a load failure propagates and leaves the
list unchanged. -/
def WasmManager.load_module (inspectors : List WasmInspector) (id : String)
    (file : WasmModuleFile) : Except String (List WasmInspector) :=
  match (WasmInspector.new id file).load with
  | Except.ok m => Except.ok (inspectors ++ [m])
  | Except.error e => Except.error e

/-- `WasmManager::inspect_packet` (wasm.rs:277-290): walk the inspectors in
order, skipping those not Loaded or Running; a `true` verdict returns
immediately with `Ok(true)`; an inspector error propagates immediately via
`?`, aborting the walk; if every inspector permits, the result is
`Ok(false)`. The returned list carries the in-place counter mutations of
the inspectors actually invoked. -/
def WasmManager.inspect_packet :
    List WasmInspector → List Nat → Except String Bool × List WasmInspector
  | [], _ => (Except.ok false, [])
  | m :: rest, packet =>
    if m.state = ModuleState.Loaded ∨ m.state = ModuleState.Running then
      match m.inspect_packet packet with
      | Except.error e => (Except.error e, m :: rest)
      | Except.ok (true, m') => (Except.ok true, m' :: rest)
      | Except.ok (false, m') =>
        let r := WasmManager.inspect_packet rest packet
        (r.1, m' :: r.2)
    else
      let r := WasmManager.inspect_packet rest packet
      (r.1, m :: r.2)

/-- `WasmManager::list_modules` (wasm.rs:293-309). -/
def WasmManager.list_modules (inspectors : List WasmInspector) :
    List (String × ModuleState × Nat × Nat) :=
  inspectors.map (fun m => (m.id, m.state, m.processed_packets, m.blocked_packets))

/-- The verdict an inspector produces on a packet, forgetting the counter
updates. -/
def WasmInspector.verdict (m : WasmInspector) (packet : List Nat) : Except String Bool :=
  (m.inspect_packet packet).map Prod.fst

/-- `CollectedStats` (telemetry.rs:32-47). The `mbps` field is an `f64` in
the source; it is modelled as an exact rational. -/
structure CollectedStats where
  total_packets : Nat
  total_bytes : Nat
  packets_per_sec : Nat
  mbps : Rat
  last_update : Nat
  prev_packets : Nat
  prev_bytes : Nat
deriving DecidableEq, Repr

/-- `TelemetryCollector` (telemetry.rs:19-28): the published stats and the
`last_collection` instant, modelled in milliseconds since an arbitrary
origin. -/
structure TelemetryCollector where
  stats : CollectedStats
  last_collection : Nat
deriving DecidableEq, Repr

/-- `TelemetryCollector::new` (telemetry.rs:60-79): zeroed stats and
`last_collection = Instant::now()`, i.e. the creation instant. -/
def TelemetryCollector.new (created_at : Nat) : TelemetryCollector :=
  { stats := { total_packets := 0, total_bytes := 0, packets_per_sec := 0,
               mbps := 0, last_update := 0, prev_packets := 0, prev_bytes := 0 },
    last_collection := created_at }

/-- Little-endian decoding of a byte list, as done field by field with
`u64::from_le_bytes` in telemetry.rs:98-106. -/
def leDecode (bytes : List Nat) : Nat := bytes.foldr (fun b acc => acc * 256 + b) 0

/-- `TelemetryCollector::collect_stats` (telemetry.rs:82-140): skip when less
than 100 ms elapsed since `last_collection`; read the stats map value (its
presence and bytes passed in as `map_value`); when it holds at least 16
bytes, decode the two counters, derive the rates from the deltas against
`prev_packets`/`prev_bytes` (saturating subtraction is `Nat` subtraction;
the `f64` divide followed by the `as u64` cast is floor division), and
store the new totals, rates, wall-clock `last_update` and previous values.
The method borrows `self` immutably, so `last_collection` is never
rewritten: the result keeps `c.last_collection` on every path. -/
def collect_stats (c : TelemetryCollector) (now_ms : Nat) (wall_secs : Nat)
    (map_value : Option (List Nat)) : TelemetryCollector :=
  let elapsed_ms := now_ms - c.last_collection
  if elapsed_ms < 100 then c
  else
    match map_value with
    | none => c
    | some value =>
      if value.length ≥ 16 then
        let packets := leDecode (value.take 8)
        let bytes := leDecode ((value.drop 8).take 8)
        let packets_diff := packets - c.stats.prev_packets
        let bytes_diff := bytes - c.stats.prev_bytes
        { c with stats := {
            packets_per_sec := packets_diff * 1000 / elapsed_ms
            mbps := ((bytes_diff * 8000 : Nat) : Rat) / ((elapsed_ms * 1000000 : Nat) : Rat)
            total_packets := packets
            total_bytes := bytes
            last_update := wall_secs
            prev_packets := packets
            prev_bytes := bytes } }
      else c

/-! Spec-side definitions and concrete fixtures used by the theorems. -/

/-- Little-endian encoding of a `w`-byte field as the spec words it: byte `i`
carries `n / 256^i % 256`. Written from the layout sentence of §3 of the
spec, for comparison with `create_filter_rule`. -/
def specLE (w n : Nat) : Bytes := (List.range w).map (fun i => n / 256 ^ i % 256)

/-- The rule value layout as §3 of the spec words it: `priority:u32`,
`action:u8`, `protocol:u8`, the four port-range `u16`s, `tcp_flags:u8`,
`redirect_ifindex:u32`, `rate_limit:u32`, `expire:u32`, `label:[u8;32]`,
24 zeroed counter bytes, multibyte fields little-endian. -/
def specRuleValue (r : FilterRule) : Bytes :=
  specLE 4 r.priority ++
  [r.action] ++
  [r.protocol] ++
  specLE 2 r.src_port_min ++
  specLE 2 r.src_port_max ++
  specLE 2 r.dst_port_min ++
  specLE 2 r.dst_port_max ++
  [r.tcp_flags] ++
  specLE 4 r.redirect_ifindex ++
  specLE 4 r.rate_limit ++
  specLE 4 r.expire ++
  labelBytes r.label ++
  List.replicate 24 0

theorem specLE_two (n : Nat) : specLE 2 n = le16 n := by
  simp [specLE, le16, List.range_succ]

theorem specLE_four (n : Nat) : specLE 4 n = le32 n := by
  simp [specLE, le32, List.range_succ]

/-- A catch-all pass rule labelled `x` with no CIDR constraint. -/
def ruleX : FilterRule :=
  { src_ip := none, dst_ip := none,
    src_port_min := 0, src_port_max := 65535, dst_port_min := 0, dst_port_max := 65535,
    protocol := 255, tcp_flags := 0, action := 1, redirect_ifindex := 0,
    priority := 100, rate_limit := 0, expire := 0, label := "x", creation_time := 0 }

/-- The map manager state right after daemon start: empty maps, empty list. -/
def emptyManager : MapManager := { filter_rules_map := [], redirect_map := [], rules := [] }

/-- State after adding `ruleX` once. -/
def dupState1 : MapManager := { filter_rules_map := [], redirect_map := [], rules := [ruleX] }

/-- State after adding `ruleX` twice. -/
def dupState2 : MapManager :=
  { filter_rules_map := [], redirect_map := [], rules := [ruleX, ruleX] }

/-- A redirect rule with `redirect_ifindex = 0`, as built by the server from
an `AddRule` request with `action = 3` and `redirect_if = null`. -/
def ruleR : FilterRule :=
  { src_ip := none, dst_ip := none,
    src_port_min := 0, src_port_max := 65535, dst_port_min := 0, dst_port_max := 65535,
    protocol := 255, tcp_flags := 0, action := 3, redirect_ifindex := 0,
    priority := 100, rate_limit := 0, expire := 0, label := "r", creation_time := 0 }

/-- The `AddRule` request `{action: 3, redirect_if: null, label: "r"}`. -/
def redirectReq : AddRuleRequest :=
  { src_ip := none, dst_ip := none,
    src_port_min := 0, src_port_max := 65535, dst_port_min := 0, dst_port_max := 65535,
    protocol := 255, tcp_flags := 0, action := 3, redirect_if := none,
    priority := 100, rate_limit := 0, expire := 0, label := "r" }

/-- The state `redirectReq` produces from `emptyManager`. -/
def redirectState : MapManager :=
  { filter_rules_map := [], redirect_map := [], rules := [ruleR] }

/-! Claim theorems. -/

/-- C1 counterexample: with a rule labelled `x` already in the list, adding a
second rule with label `x` does not fail with `DuplicateLabel` — it
succeeds and the rule list grows to two entries both labelled `x`. -/
theorem add_rule_duplicate_label_not_rejected :
    add_rule emptyManager ruleX = Except.ok dupState1 ∧
    add_rule dupState1 ruleX = Except.ok dupState2 ∧
    dupState2.rules.map FilterRule.label = ["x", "x"] :=
  ⟨rfl, rfl, rfl⟩

/-- C1 amended: `MapManager::add_rule` performs no duplicate-label check.
For every state whose rule list already contains the label, adding another
rule with that label succeeds and appends it to the rule list. -/
theorem add_rule_ignores_duplicate_labels (s : MapManager) (r : FilterRule)
    (h : ∃ r0 ∈ s.rules, r0.label = r.label) :
    (add_rule s r).toOption.map MapManager.rules = some (s.rules ++ [r]) := by
  cases hsrc : r.src_ip with
  | none => simp only [add_rule, hsrc]; split <;> rfl
  | some v => simp only [add_rule, hsrc]; split <;> rfl

/-- C1 witness: the amended statement applied to the concrete duplicate
state. -/
theorem add_rule_ignores_duplicate_labels_witness :
    (add_rule dupState1 ruleX).toOption.map MapManager.rules =
      some (dupState1.rules ++ [ruleX]) :=
  add_rule_ignores_duplicate_labels dupState1 ruleX ⟨ruleX, by simp [dupState1], rfl⟩

/-- C2 counterexample: the `AddRule` request with `action = 3` and
`redirect_if = null` returns a `Success` response and installs the rule
(with `redirect_ifindex = 0`), instead of returning an `Error` response and
installing nothing. -/
theorem addrule_redirect_null_succeeds :
    processAddRule emptyManager redirectReq 0 =
      Except.ok (ApiResponse.Success "Rule 'r' added successfully", redirectState) ∧
    redirectState.rules = [ruleR] :=
  ⟨rfl, rfl⟩

/-- C2 amended: an `AddRule` request with `action = 3` and `redirect_if`
absent is not rejected: it succeeds with a `Success` response, appends a
rule whose `redirect_ifindex` is 0, and leaves the redirect map unchanged. -/
theorem addrule_redirect_without_if (s : MapManager) (req : AddRuleRequest) (now : Nat)
    (v1 v2 : Option (Nat × Nat))
    (ha : req.action = 3) (hr : req.redirect_if = none)
    (hs : parseOptIp req.src_ip = Except.ok v1)
    (hd : parseOptIp req.dst_ip = Except.ok v2) :
    (processAddRule s req now).toOption.map
        (fun p => (p.1, p.2.redirect_map, p.2.rules.map FilterRule.redirect_ifindex)) =
      some (ApiResponse.Success ("Rule " ++ sq ++ req.label ++ sq ++ " added successfully"),
            s.redirect_map, (s.rules.map FilterRule.redirect_ifindex) ++ [0]) := by
  simp only [processAddRule, hs, hd, hr, resolveRedirectIf]
  cases v1 with
  | none =>
    simp [add_rule]
    exact ⟨_, _, rfl, rfl, rfl, by simp⟩
  | some v =>
    simp [add_rule]
    exact ⟨_, _, rfl, rfl, rfl, by simp⟩

/-- C2 witness: the amended statement applied to the concrete request. -/
theorem addrule_redirect_without_if_witness :
    (processAddRule emptyManager redirectReq 0).toOption.map
        (fun p => (p.1, p.2.redirect_map, p.2.rules.map FilterRule.redirect_ifindex)) =
      some (ApiResponse.Success ("Rule " ++ sq ++ redirectReq.label ++ sq ++ " added successfully"),
            emptyManager.redirect_map,
            (emptyManager.rules.map FilterRule.redirect_ifindex) ++ [0]) :=
  addrule_redirect_without_if emptyManager redirectReq 0 none none rfl rfl rfl rfl

/-- C3: the byte value written to the `filter_rules` map is exactly the
fixed layout of §3 — `priority:u32`, `action:u8`, `protocol:u8`, the four
port bounds as `u16`, `tcp_flags:u8`, `redirect_ifindex:u32`,
`rate_limit:u32`, `expire:u32`, `label:[u8;32]`, then 24 zeroed counter
bytes, all multibyte fields little-endian. -/
theorem rule_value_layout (r : FilterRule) : create_filter_rule r = specRuleValue r := by
  simp [create_filter_rule, specRuleValue, specLE_two, specLE_four]

/-- C4 counterexample: the addresses `10.0.0.1` and `10.0.0.0` agree on
their first 8 bits, yet with prefix length 8 `create_prefix_key` writes two
different keys — the bits beyond the prefix are not masked. -/
theorem prefix_key_not_masked :
    167772161 / 16777216 = 167772160 / 16777216 ∧
    create_prefix_key 167772161 8 ≠ create_prefix_key 167772160 8 := by
  decide

/-- C4 amended: `create_prefix_key` writes the address bits unchanged; for
32-bit inputs the written keys are equal exactly when address and prefix
length are equal, so no masking beyond the prefix takes place. -/
theorem create_prefix_key_injective (addr1 addr2 p1 p2 : Nat)
    (h1 : addr1 < 4294967296) (h2 : addr2 < 4294967296)
    (h3 : p1 < 4294967296) (h4 : p2 < 4294967296) :
    create_prefix_key addr1 p1 = create_prefix_key addr2 p2 ↔ (addr1 = addr2 ∧ p1 = p2) := by
  constructor
  · intro h
    simp [create_prefix_key, le32] at h
    omega
  · rintro ⟨rfl, rfl⟩
    rfl

/-- C4 witness: the amended statement applied at concrete 32-bit inputs. -/
theorem create_prefix_key_injective_witness :
    create_prefix_key 167772161 8 = create_prefix_key 167772160 8 ↔
      (167772161 = 167772160 ∧ 8 = 8) :=
  create_prefix_key_injective 167772161 167772160 8 8
    (by norm_num) (by norm_num) (by norm_num) (by norm_num)

/-! Sandbox-host fixtures and helper lemmas. -/

/-- A well-formed module file whose entry point always returns `ret`. -/
def fileOk (ret : Int) : WasmModuleFile :=
  { readable := true, compiles := true, instantiates := true, hasMemory := true,
    hasInit := false, initTraps := false, hasAllocate := false,
    allocResult := fun _ => WasmCallResult.ok 1024,
    writeFails := fun _ _ => false,
    hasInspectFunc := true,
    inspectResult := fun _ => WasmCallResult.ok ret }

/-- A well-formed module file whose entry point always traps. -/
def fileTrap : WasmModuleFile :=
  { fileOk 0 with inspectResult := fun _ => WasmCallResult.trap }

/-- A module file that exports everything except `inspect_packet`. -/
def noInspectFile : WasmModuleFile :=
  { fileOk 0 with hasInspectFunc := false }

/-- A loaded module that permits every packet. -/
def permitModule : WasmInspector :=
  { id := "permit", file := fileOk 0, state := ModuleState.Loaded, loaded := true,
    processed_packets := 0, blocked_packets := 0 }

/-- A loaded module that blocks every packet. -/
def blockModule : WasmInspector :=
  { id := "block", file := fileOk 1, state := ModuleState.Loaded, loaded := true,
    processed_packets := 0, blocked_packets := 0 }

/-- A loaded module whose entry point traps on every packet. -/
def trapModule : WasmInspector :=
  { id := "trap", file := fileTrap, state := ModuleState.Loaded, loaded := true,
    processed_packets := 0, blocked_packets := 0 }

theorem verdict_ok_cases {m : WasmInspector} {packet : List Nat} {b : Bool}
    (h : m.verdict packet = Except.ok b) :
    ∃ m', m.inspect_packet packet = Except.ok (b, m') := by
  unfold WasmInspector.verdict at h
  cases hm : m.inspect_packet packet with
  | error e => rw [hm] at h; simp [Except.map] at h
  | ok p =>
    rw [hm] at h
    cases p with
    | mk b' m' =>
      simp [Except.map] at h
      subst h
      exact ⟨m', rfl⟩

theorem verdict_error_cases {m : WasmInspector} {packet : List Nat} {e : String}
    (h : m.verdict packet = Except.error e) :
    m.inspect_packet packet = Except.error e := by
  unfold WasmInspector.verdict at h
  cases hm : m.inspect_packet packet with
  | error e' => rw [hm] at h; simp [Except.map] at h; rw [h]
  | ok p => rw [hm] at h; simp [Except.map] at h

theorem fanin_all_permit (l : List WasmInspector) (packet : List Nat)
    (h : ∀ m ∈ l, (m.state = ModuleState.Loaded ∨ m.state = ModuleState.Running) →
      m.verdict packet = Except.ok false) :
    (WasmManager.inspect_packet l packet).1 = Except.ok false := by
  induction l with
  | nil => rfl
  | cons m rest ih =>
    simp only [WasmManager.inspect_packet]
    by_cases hact : m.state = ModuleState.Loaded ∨ m.state = ModuleState.Running
    · rw [if_pos hact]
      obtain ⟨m', hm'⟩ := verdict_ok_cases (h m (List.mem_cons_self m rest) hact)
      rw [hm']
      exact ih (fun x hx hxa => h x (List.mem_cons_of_mem m hx) hxa)
    · rw [if_neg hact]
      exact ih (fun x hx hxa => h x (List.mem_cons_of_mem m hx) hxa)

theorem fanin_first_block (l1 l2 : List WasmInspector) (m : WasmInspector)
    (packet : List Nat)
    (h1 : ∀ x ∈ l1, (x.state = ModuleState.Loaded ∨ x.state = ModuleState.Running) →
      x.verdict packet = Except.ok false)
    (hact : m.state = ModuleState.Loaded ∨ m.state = ModuleState.Running)
    (hm : m.verdict packet = Except.ok true) :
    (WasmManager.inspect_packet (l1 ++ m :: l2) packet).1 = Except.ok true ∧
    ((WasmManager.inspect_packet (l1 ++ m :: l2) packet).2).drop (l1.length + 1) = l2 := by
  induction l1 with
  | nil =>
    simp only [List.nil_append, WasmManager.inspect_packet]
    rw [if_pos hact]
    obtain ⟨m', hm'⟩ := verdict_ok_cases hm
    rw [hm']
    exact ⟨rfl, rfl⟩
  | cons a as ih =>
    obtain ⟨ih1, ih2⟩ := ih (fun x hx hxa => h1 x (List.mem_cons_of_mem a hx) hxa)
    simp only [List.cons_append, WasmManager.inspect_packet, List.length_cons]
    by_cases hacta : a.state = ModuleState.Loaded ∨ a.state = ModuleState.Running
    · rw [if_pos hacta]
      obtain ⟨a', ha'⟩ := verdict_ok_cases (h1 a (List.mem_cons_self a as) hacta)
      rw [ha']
      exact ⟨ih1, ih2⟩
    · rw [if_neg hacta]
      exact ⟨ih1, ih2⟩

theorem fanin_error_aborts (l1 l2 : List WasmInspector) (m : WasmInspector)
    (packet : List Nat) (e : String)
    (h1 : ∀ x ∈ l1, (x.state = ModuleState.Loaded ∨ x.state = ModuleState.Running) →
      x.verdict packet = Except.ok false)
    (hact : m.state = ModuleState.Loaded ∨ m.state = ModuleState.Running)
    (hm : m.verdict packet = Except.error e) :
    (WasmManager.inspect_packet (l1 ++ m :: l2) packet).1 = Except.error e ∧
    ((WasmManager.inspect_packet (l1 ++ m :: l2) packet).2).drop l1.length = m :: l2 := by
  induction l1 with
  | nil =>
    simp only [List.nil_append, WasmManager.inspect_packet]
    rw [if_pos hact, verdict_error_cases hm]
    exact ⟨rfl, rfl⟩
  | cons a as ih =>
    obtain ⟨ih1, ih2⟩ := ih (fun x hx hxa => h1 x (List.mem_cons_of_mem a hx) hxa)
    simp only [List.cons_append, WasmManager.inspect_packet, List.length_cons]
    by_cases hacta : a.state = ModuleState.Loaded ∨ a.state = ModuleState.Running
    · rw [if_pos hacta]
      obtain ⟨a', ha'⟩ := verdict_ok_cases (h1 a (List.mem_cons_self a as) hacta)
      rw [ha']
      exact ⟨ih1, ih2⟩
    · rw [if_neg hacta]
      exact ⟨ih1, ih2⟩

/-- C5 counterexample: two loaded modules, the first traps and the second
permits. The host does not treat the error as a permit and does not go on:
it returns the error instead of a verdict, and the second module is never
invoked (both processed counters stay 0). -/
theorem wasm_error_aborts_chain :
    (WasmManager.inspect_packet [trapModule, permitModule] [0]).1 =
      Except.error "Failed to call inspect_packet function" ∧
    (WasmManager.inspect_packet [trapModule, permitModule] [0]).2.map
        WasmInspector.processed_packets = [0, 0] :=
  ⟨rfl, rfl⟩

/-- C5 amended: modules are invoked in insertion order, skipping those not
Loaded or Running; if every invoked module permits, the verdict is PERMIT
(`Ok(false)`); the first module to block short-circuits with BLOCK
(`Ok(true)`) and the modules after it are left untouched; but an error
inside a module is NOT treated as a permit — it aborts the chain
immediately, the error propagates in place of a verdict, and the erroring
module and all later modules are left untouched. -/
theorem wasm_fanin_policy :
    (∀ (l : List WasmInspector) (packet : List Nat),
      (∀ m ∈ l, (m.state = ModuleState.Loaded ∨ m.state = ModuleState.Running) →
        m.verdict packet = Except.ok false) →
      (WasmManager.inspect_packet l packet).1 = Except.ok false) ∧
    (∀ (l1 l2 : List WasmInspector) (m : WasmInspector) (packet : List Nat),
      (∀ x ∈ l1, (x.state = ModuleState.Loaded ∨ x.state = ModuleState.Running) →
        x.verdict packet = Except.ok false) →
      (m.state = ModuleState.Loaded ∨ m.state = ModuleState.Running) →
      m.verdict packet = Except.ok true →
      (WasmManager.inspect_packet (l1 ++ m :: l2) packet).1 = Except.ok true ∧
      ((WasmManager.inspect_packet (l1 ++ m :: l2) packet).2).drop (l1.length + 1) = l2) ∧
    (∀ (l1 l2 : List WasmInspector) (m : WasmInspector) (packet : List Nat) (e : String),
      (∀ x ∈ l1, (x.state = ModuleState.Loaded ∨ x.state = ModuleState.Running) →
        x.verdict packet = Except.ok false) →
      (m.state = ModuleState.Loaded ∨ m.state = ModuleState.Running) →
      m.verdict packet = Except.error e →
      (WasmManager.inspect_packet (l1 ++ m :: l2) packet).1 = Except.error e ∧
      ((WasmManager.inspect_packet (l1 ++ m :: l2) packet).2).drop l1.length = m :: l2) :=
  ⟨fanin_all_permit, fanin_first_block, fanin_error_aborts⟩

/-- C5 witness: the fan-in policy applied to concrete loaded modules — one
permitting module alone, a blocking module behind a permitting one, and a
trapping module behind a permitting one. -/
theorem wasm_fanin_policy_witness :
    (WasmManager.inspect_packet [permitModule] [0]).1 = Except.ok false ∧
    ((WasmManager.inspect_packet ([permitModule] ++ blockModule :: [permitModule]) [0]).1 =
        Except.ok true ∧
      ((WasmManager.inspect_packet ([permitModule] ++ blockModule :: [permitModule]) [0]).2).drop
          ([permitModule].length + 1) = [permitModule]) ∧
    ((WasmManager.inspect_packet ([permitModule] ++ trapModule :: [permitModule]) [0]).1 =
        Except.error "Failed to call inspect_packet function" ∧
      ((WasmManager.inspect_packet ([permitModule] ++ trapModule :: [permitModule]) [0]).2).drop
          [permitModule].length = trapModule :: [permitModule]) := by
  have hperm : ∀ x ∈ [permitModule],
      (x.state = ModuleState.Loaded ∨ x.state = ModuleState.Running) →
      x.verdict [0] = Except.ok false := by
    intro x hx hxa
    simp only [List.mem_singleton] at hx
    subst hx
    rfl
  exact ⟨wasm_fanin_policy.1 [permitModule] [0] hperm,
    wasm_fanin_policy.2.1 [permitModule] [permitModule] blockModule [0] hperm
      (Or.inl rfl) rfl,
    wasm_fanin_policy.2.2 [permitModule] [permitModule] trapModule [0]
      "Failed to call inspect_packet function" hperm (Or.inl rfl) rfl⟩

/-- C6 counterexample: a module file exporting a memory but no
`inspect_packet` entry point loads successfully — no `WasmMissingExport`
failure — and is listed by the host with state `Loaded`. -/
theorem load_without_entry_point_succeeds :
    (WasmManager.load_module [] "m" noInspectFile).toOption.map WasmManager.list_modules =
      some [("m", ModuleState.Loaded, 0, 0)] :=
  rfl

/-- C6 amended: loading never resolves the `inspect_packet` entry point. A
readable module file that compiles, instantiates, exports a memory and has
no trapping `init` loads into state `Loaded` and is listed by the host even
when it exports no `inspect_packet`; the missing entry point only surfaces
as an error when the module is invoked on a packet. -/
theorem load_does_not_check_entry_point (id : String) (f : WasmModuleFile)
    (packet : List Nat)
    (h1 : f.readable = true) (h2 : f.compiles = true) (h3 : f.instantiates = true)
    (h4 : f.hasMemory = true) (h5 : ¬(f.hasInit = true ∧ f.initTraps = true))
    (h6 : f.hasInspectFunc = false) :
    (WasmInspector.new id f).load =
      Except.ok { id := id, file := f, state := ModuleState.Loaded, loaded := true,
                  processed_packets := 0, blocked_packets := 0 } ∧
    WasmManager.load_module [] id f =
      Except.ok [{ id := id, file := f, state := ModuleState.Loaded, loaded := true,
                   processed_packets := 0, blocked_packets := 0 }] ∧
    WasmInspector.inspect_packet
        { id := id, file := f, state := ModuleState.Loaded, loaded := true,
          processed_packets := 0, blocked_packets := 0 } packet =
      Except.error "WASM module has no inspect_packet function" := by
  refine ⟨?_, ?_, ?_⟩ <;>
    simp [WasmInspector.load, WasmInspector.new, WasmManager.load_module,
      WasmInspector.inspect_packet, h1, h2, h3, h4, h5, h6]

/-- C6 witness: the amended statement applied to the concrete module file
without an `inspect_packet` export. -/
theorem load_does_not_check_entry_point_witness :
    (WasmInspector.new "m" noInspectFile).load =
      Except.ok { id := "m", file := noInspectFile, state := ModuleState.Loaded,
                  loaded := true, processed_packets := 0, blocked_packets := 0 } ∧
    WasmManager.load_module [] "m" noInspectFile =
      Except.ok [{ id := "m", file := noInspectFile, state := ModuleState.Loaded,
                   loaded := true, processed_packets := 0, blocked_packets := 0 }] ∧
    WasmInspector.inspect_packet
        { id := "m", file := noInspectFile, state := ModuleState.Loaded,
          loaded := true, processed_packets := 0, blocked_packets := 0 } [0] =
      Except.error "WASM module has no inspect_packet function" :=
  load_does_not_check_entry_point "m" noInspectFile [0] rfl rfl rfl rfl
    (by simp [noInspectFile, fileOk]) rfl

/-! Telemetry, label truncation and deletion. -/

/-- A 16-byte stats map value encoding `packets = 100`, `bytes = 5000`
little-endian. -/
def demoStatsValue : List Nat :=
  [100, 0, 0, 0, 0, 0, 0, 0, 136, 19, 0, 0, 0, 0, 0, 0]

/-- C7: `collect_stats` never updates `last_collection` — it borrows the
collector immutably, so on every path the instant the next elapsed time is
measured from stays the collector's creation instant, even though a
non-skipped sample does update `prev_packets` and `prev_bytes` (shown here
at a concrete sample taken 150 ms after creation). -/
theorem collect_stats_frozen_instant :
    (∀ (c : TelemetryCollector) (now_ms wall_secs : Nat) (v : Option (List Nat)),
      (collect_stats c now_ms wall_secs v).last_collection = c.last_collection) ∧
    (collect_stats (TelemetryCollector.new 0) 150 1 (some demoStatsValue)).stats.prev_packets
      = 100 ∧
    (collect_stats (TelemetryCollector.new 0) 150 1 (some demoStatsValue)).stats.prev_bytes
      = 5000 ∧
    (collect_stats (TelemetryCollector.new 0) 150 1 (some demoStatsValue)).last_collection
      = 0 := by
  refine ⟨?_, rfl, rfl, rfl⟩
  intro c now_ms wall_secs v
  simp only [collect_stats]
  split
  · rfl
  · split
    · rfl
    · split <;> rfl

theorem labelBytes_getD (l : String) (i : Nat) :
    (labelBytes l).getD i 0 = ((strBytes l).take 31).getD i 0 := by
  by_cases h32 : i < 32
  · rw [List.getD_eq_getElem (labelBytes l) 0 (by simp [labelBytes]; omega)]
    simp only [labelBytes, List.getElem_map, List.getElem_range]
    by_cases hi : i < 31 ∧ i < (strBytes l).length
    · rw [if_pos hi]
      rw [List.getD_eq_getElem ((strBytes l).take 31) 0 (by simp [List.length_take]; omega)]
      rw [List.getElem_take]
      exact List.getD_eq_getElem _ _ hi.2
    · rw [if_neg hi]
      rw [List.getD_eq_default ((strBytes l).take 31) 0 (by simp [List.length_take]; omega)]
  · rw [List.getD_eq_default (labelBytes l) 0 (by simp [labelBytes]; omega),
      List.getD_eq_default ((strBytes l).take 31) 0 (by simp [List.length_take]; omega)]

/-- C9: bytes 27..58 of the encoded rule value — the label field — hold
exactly the first 31 bytes of the label zero-padded to 32 bytes (so byte 31
of the field and everything past the 31st label byte is zero), while the
in-memory rule list retains the full, untruncated label string. -/
theorem filter_rule_label_truncated :
    (∀ (r : FilterRule) (i : Nat),
      (((create_filter_rule r).drop 27).take 32).getD i 0 =
        ((strBytes r.label).take 31).getD i 0) ∧
    (∀ (s : MapManager) (r : FilterRule),
      (add_rule s r).toOption.map (fun s2 => s2.rules.map FilterRule.label) =
        some (s.rules.map FilterRule.label ++ [r.label])) := by
  constructor
  · intro r i
    have h : ((create_filter_rule r).drop 27).take 32 = labelBytes r.label := rfl
    rw [h]
    exact labelBytes_getD r.label i
  · intro s r
    cases hsrc : r.src_ip <;> simp only [add_rule, hsrc] <;> split <;>
      simp [Except.toOption]

theorem position_append (p : FilterRule → Bool) (l1 l2 : List FilterRule)
    (r0 : FilterRule) (h1 : ∀ x ∈ l1, p x = false) (h0 : p r0 = true) :
    position p (l1 ++ r0 :: l2) = some l1.length := by
  induction l1 with
  | nil => simp [position, h0]
  | cons a as ih =>
    simp [position, h1 a (List.mem_cons_self a as),
      ih (fun x hx => h1 x (List.mem_cons_of_mem a hx))]

theorem position_none (p : FilterRule → Bool) (l : List FilterRule)
    (h : ∀ x ∈ l, p x = false) : position p l = none := by
  induction l with
  | nil => rfl
  | cons a as ih =>
    simp [position, h a (List.mem_cons_self a as),
      ih (fun x hx => h x (List.mem_cons_of_mem a hx))]

theorem getElem?_append_cons (l1 l2 : List FilterRule) (r0 : FilterRule) :
    (l1 ++ r0 :: l2)[l1.length]? = some r0 := by
  induction l1 with
  | nil => simp
  | cons a as ih => simpa using ih

theorem eraseIdx_append_cons (l1 l2 : List FilterRule) (r0 : FilterRule) :
    (l1 ++ r0 :: l2).eraseIdx l1.length = l1 ++ l2 := by
  induction l1 with
  | nil => rfl
  | cons a as ih =>
    show a :: (as ++ r0 :: l2).eraseIdx as.length = a :: (as ++ l2)
    rw [ih]

theorem delete_rule_decomposed (s : MapManager) (label : String)
    (l1 l2 : List FilterRule) (r0 : FilterRule) (fm2 : KernelMap)
    (hs : s.rules = l1 ++ r0 :: l2)
    (h1 : ∀ x ∈ l1, x.label ≠ label)
    (h0 : r0.label = label)
    (hk : match r0.src_ip with
          | some (a, p) => mapDelete s.filter_rules_map (create_prefix_key a p) = some fm2
          | none => fm2 = s.filter_rules_map) :
    delete_rule s label =
      Except.ok ({ filter_rules_map := fm2, redirect_map := s.redirect_map,
                   rules := l1 ++ l2 }, true) := by
  have hpos : position (fun r => r.label == label) s.rules = some l1.length := by
    rw [hs]
    exact position_append _ l1 l2 r0
      (fun x hx => by simpa using h1 x hx) (by simpa using h0)
  have hget : s.rules[l1.length]? = some r0 := by
    rw [hs]; exact getElem?_append_cons l1 l2 r0
  have herase : s.rules.eraseIdx l1.length = l1 ++ l2 := by
    rw [hs]; exact eraseIdx_append_cons l1 l2 r0
  cases hsrc : r0.src_ip with
  | some ap =>
    obtain ⟨a, p⟩ := ap
    rw [hsrc] at hk
    simp only [delete_rule, hpos, hget, hsrc, hk, herase]
  | none =>
    rw [hsrc] at hk
    subst hk
    simp only [delete_rule, hpos, hget, hsrc, herase]

/-- C8: deleting an existing label removes exactly that rule's
`filter_rules` entry and its local-list entry, returns `true`, and leaves
the redirect map unchanged; the server turns it into a `Success` response.
Deleting an absent label changes nothing, returns `false`, and the server
responds with an `Error`. -/
theorem delete_rule_removes_entry :
    (∀ (s : MapManager) (label : String) (l1 l2 : List FilterRule)
        (r0 : FilterRule) (fm2 : KernelMap),
      s.rules = l1 ++ r0 :: l2 →
      (∀ x ∈ l1, x.label ≠ label) →
      r0.label = label →
      (match r0.src_ip with
       | some (a, p) => mapDelete s.filter_rules_map (create_prefix_key a p) = some fm2
       | none => fm2 = s.filter_rules_map) →
      delete_rule s label =
        Except.ok ({ filter_rules_map := fm2, redirect_map := s.redirect_map,
                     rules := l1 ++ l2 }, true) ∧
      processDeleteRule s label =
        Except.ok (ApiResponse.Success ("Rule " ++ sq ++ label ++ sq ++ " deleted successfully"),
          { filter_rules_map := fm2, redirect_map := s.redirect_map, rules := l1 ++ l2 })) ∧
    (∀ (s : MapManager) (label : String),
      (∀ x ∈ s.rules, x.label ≠ label) →
      delete_rule s label = Except.ok (s, false) ∧
      processDeleteRule s label =
        Except.ok (ApiResponse.Error ("Rule " ++ sq ++ label ++ sq ++ " not found"), s)) := by
  constructor
  · intro s label l1 l2 r0 fm2 hs h1 h0 hk
    have hdel := delete_rule_decomposed s label l1 l2 r0 fm2 hs h1 h0 hk
    exact ⟨hdel, by simp [processDeleteRule, hdel]⟩
  · intro s label h
    have hpos : position (fun r => r.label == label) s.rules = none :=
      position_none _ _ (fun x hx => by simpa using h x hx)
    have hdel : delete_rule s label = Except.ok (s, false) := by
      simp only [delete_rule, hpos]
    exact ⟨hdel, by simp [processDeleteRule, hdel]⟩

/-- C8 witness: the statement applied to a concrete one-rule state — the
present label `x` and the absent label `y`. -/
theorem delete_rule_removes_entry_witness :
    (delete_rule dupState1 "x" =
        Except.ok ({ filter_rules_map := [], redirect_map := [],
                     rules := ([] : List FilterRule) ++ [] }, true) ∧
      processDeleteRule dupState1 "x" =
        Except.ok (ApiResponse.Success ("Rule " ++ sq ++ "x" ++ sq ++ " deleted successfully"),
          { filter_rules_map := [], redirect_map := [],
            rules := ([] : List FilterRule) ++ [] })) ∧
    (delete_rule dupState1 "y" = Except.ok (dupState1, false) ∧
      processDeleteRule dupState1 "y" =
        Except.ok (ApiResponse.Error ("Rule " ++ sq ++ "y" ++ sq ++ " not found"), dupState1)) := by
  constructor
  · exact delete_rule_removes_entry.1 dupState1 "x" [] [] ruleX [] rfl (by simp) rfl rfl
  · exact delete_rule_removes_entry.2 dupState1 "y"
      (by intro x hx; simp [dupState1] at hx; subst hx; decide)

/-- C10: when the rule list contains several rules with the same label,
`delete_rule` removes exactly the earliest-inserted one and returns `true`;
every later rule with that label stays in the list (the result list is the
original with only the first match excised). -/
theorem delete_rule_removes_earliest (s : MapManager) (label : String)
    (l1 l2 : List FilterRule) (r0 : FilterRule) (fm2 : KernelMap)
    (hs : s.rules = l1 ++ r0 :: l2)
    (h1 : ∀ x ∈ l1, x.label ≠ label)
    (h0 : r0.label = label)
    (hdup : ∃ x ∈ l2, x.label = label)
    (hk : match r0.src_ip with
          | some (a, p) => mapDelete s.filter_rules_map (create_prefix_key a p) = some fm2
          | none => fm2 = s.filter_rules_map) :
    delete_rule s label =
      Except.ok ({ filter_rules_map := fm2, redirect_map := s.redirect_map,
                   rules := l1 ++ l2 }, true) :=
  delete_rule_decomposed s label l1 l2 r0 fm2 hs h1 h0 hk

/-- C10 witness: the statement applied to the concrete state holding two
rules labelled `x`; the survivor is the later insertion. -/
theorem delete_rule_removes_earliest_witness :
    delete_rule dupState2 "x" =
      Except.ok ({ filter_rules_map := [], redirect_map := [],
                   rules := ([] : List FilterRule) ++ [ruleX] }, true) :=
  delete_rule_removes_earliest dupState2 "x" [] [ruleX] ruleX [] rfl (by simp)
    rfl ⟨ruleX, by simp, rfl⟩ rfl

end SwiftGuard
